import Mathlib

/-!
Verification of the cryptographic authentication layer of mysticeti
(`crates/mysticeti-core/src/crypto.rs`).

The hash accumulator (blake2 `BlockHasher`) is modelled as the list of bytes
fed to it; its finalization, and the external mldsa44 signing and verifying
primitives, are kept abstract as explicit function parameters, since they
live in external crates. Bytes are natural numbers below 256; fixed-width
integers are encoded big-endian per the canonical encoding.
-/

namespace Mysticeti

/-- `mldsa44::signature_bytes()`: the external scheme's signature size. -/
def SIGNATURE_SIZE : Nat := 2420

/-- `mldsa44::secret_key_bytes()`: the external scheme's secret key size. -/
def SECRET_KEY_SIZE : Nat := 2560

/-- `mldsa44::public_key_bytes()`: the external scheme's public key size. -/
def PUBLIC_KEY_SIZE : Nat := 1312

/-- `BLOCK_DIGEST_SIZE`: 32 bytes. -/
def BLOCK_DIGEST_SIZE : Nat := 32

/-- Big-endian bytes of a `u64` (`u64::to_be_bytes`). -/
def be64 (n : Nat) : List Nat :=
  [n / 2 ^ 56 % 256, n / 2 ^ 48 % 256, n / 2 ^ 40 % 256, n / 2 ^ 32 % 256,
   n / 2 ^ 24 % 256, n / 2 ^ 16 % 256, n / 2 ^ 8 % 256, n % 256]

/-- Big-endian bytes of a `u128` (`u128::to_be_bytes`). -/
def be128 (n : Nat) : List Nat :=
  [n / 2 ^ 120 % 256, n / 2 ^ 112 % 256, n / 2 ^ 104 % 256, n / 2 ^ 96 % 256,
   n / 2 ^ 88 % 256, n / 2 ^ 80 % 256, n / 2 ^ 72 % 256, n / 2 ^ 64 % 256,
   n / 2 ^ 56 % 256, n / 2 ^ 48 % 256, n / 2 ^ 40 % 256, n / 2 ^ 32 % 256,
   n / 2 ^ 24 % 256, n / 2 ^ 16 % 256, n / 2 ^ 8 % 256, n % 256]

/-- Modelled from the spec: `AuthorityIndex`, an ordinal identifying a
validator (a `u64`; its definition in `types.rs` is not under `src/`). -/
abbrev AuthorityIndex := Nat

/-- Modelled from the spec: `RoundNumber`, a round counter (a `u64`). -/
abbrev RoundNumber := Nat

/-- Modelled from the spec: `TimestampNs`, a creation timestamp (a `u128`,
matching the `CryptoHash for u128` instance in `crypto.rs`). -/
abbrev TimestampNs := Nat

/-- Modelled from the spec: `EpochStatus`, the epoch-transition marker, a
two-valued flag. -/
abbrev EpochStatus := Bool

/-- `BlockDigest([u8; BLOCK_DIGEST_SIZE])`: 32 fixed bytes. -/
structure BlockDigest where
  bytes : List Nat
  size_eq : bytes.length = BLOCK_DIGEST_SIZE

/-- `Default` for `BlockDigest` (derived): all-zero bytes. -/
instance : Inhabited BlockDigest :=
  ⟨⟨List.replicate BLOCK_DIGEST_SIZE 0, by simp⟩⟩

/-- `SignatureBytes([u8; SIGNATURE_SIZE])`: fixed-width signature bytes. -/
structure SignatureBytes where
  bytes : List Nat
  size_eq : bytes.length = SIGNATURE_SIZE

/-- `Default for SignatureBytes`: `[0u8; SIGNATURE_SIZE]`. -/
instance : Inhabited SignatureBytes :=
  ⟨⟨List.replicate SIGNATURE_SIZE 0, by simp⟩⟩

/-- `PublicKey(mldsa44::PublicKey)`, modelled by its byte content (the
external type is a fixed-size byte array). -/
structure PublicKey where
  bytes : List Nat
  size_eq : bytes.length = PUBLIC_KEY_SIZE

/-- `SecretKeyLocal(mldsa44::SecretKey)`, modelled by its byte content. -/
structure SecretKeyLocal where
  bytes : List Nat

/-- `Default for SecretKeyLocal`: built from `[0u8; SECRET_KEY_SIZE]`. -/
instance : Inhabited SecretKeyLocal :=
  ⟨⟨List.replicate SECRET_KEY_SIZE 0⟩⟩

/-- `Signer(Box<SecretKeyLocal>, PublicKey)`: field 0 is the boxed secret
key, field 1 the cached public key. -/
structure Signer where
  secret : SecretKeyLocal
  pk : PublicKey

/-- Modelled from the spec: `BlockReference = (AuthorityIndex, RoundNumber,
BlockDigest)` (`types.rs` is not under `src/`). -/
structure BlockReference where
  authority : AuthorityIndex
  round : RoundNumber
  digest : BlockDigest

/-- Modelled from the spec: the payload of `VoteRange(range)`, a contiguous
range given by its two `u64` bounds (`types.rs` is not under `src/`). -/
structure VoteRangePayload where
  first : Nat
  last : Nat

/-- `Vote` with decisions Accept, Reject(None), Reject(Some(conflict)); the
variant shape is visible in the `crypto.rs` match, the conflicting payload is
modelled from the spec as a reference. -/
inductive Vote where
  | accept : Vote
  | reject : Option BlockReference → Vote

/-- Modelled from the spec plus the `crypto.rs` match: `BaseStatement` is
`Share(transaction payload)`, `Vote(reference, decision)`, or
`VoteRange(range)`; a transaction payload is its raw bytes. -/
inductive BaseStatement where
  | share : List Nat → BaseStatement
  | vote : BlockReference → Vote → BaseStatement
  | voteRange : VoteRangePayload → BaseStatement

/-- Modelled from the spec: `StatementBlock`, carrying the signed fields and
the stored signature (digest field omitted, unused by the code modelled
here). -/
structure StatementBlock where
  author : AuthorityIndex
  round : RoundNumber
  includes : List BlockReference
  statements : List BaseStatement
  meta_creation_time_ns : TimestampNs
  epoch_changed : EpochStatus
  signature : SignatureBytes

/-- `pqcrypto_traits::sign::VerificationError`. -/
inductive VerificationError where
  | InvalidSignature : VerificationError
  | UnknownVerificationError : VerificationError
deriving DecidableEq

/- Canonical hash encoding. The hash accumulator state is the list of bytes
fed so far; `update` appends. -/

/-- Modelled from the spec: `crypto_hash` of the epoch-transition marker,
one stable byte for the two-valued flag. -/
def epochStatusBytes (e : EpochStatus) : List Nat :=
  [if e then 1 else 0]

/-- Modelled from the spec: `crypto_hash` of a vote-range payload, its two
`u64` bounds big-endian. -/
def voteRangeBytes (r : VoteRangePayload) : List Nat :=
  be64 r.first ++ be64 r.last

/-- Modelled from the spec: `crypto_hash` of a `BlockReference`, its fields
in declared order (authority, round, digest bytes). -/
def blockReferenceBytes (r : BlockReference) : List Nat :=
  be64 r.authority ++ be64 r.round ++ r.digest.bytes

/-- One iteration of the `for statement in statements` loop of
`BlockDigest::digest_without_signature`: the discriminant byte then the
payload fields, appended to the accumulator state. -/
def statementUpdate (st : List Nat) : BaseStatement → List Nat
  | .share tx => st ++ [0] ++ tx
  | .vote id .accept => st ++ [1] ++ blockReferenceBytes id
  | .vote id (.reject none) => st ++ [2] ++ blockReferenceBytes id
  | .vote id (.reject (some other)) =>
      st ++ [3] ++ blockReferenceBytes id ++ blockReferenceBytes other
  | .voteRange range => st ++ [4] ++ voteRangeBytes range

/-- `BlockDigest::digest_without_signature` (non-test): feeds authority,
round, each include, each statement, creation time and epoch marker into the
accumulator `st`. -/
def digestWithoutSignature (st : List Nat) (authority : AuthorityIndex)
    (round : RoundNumber) (includes : List BlockReference)
    (statements : List BaseStatement) (meta_creation_time_ns : TimestampNs)
    (epoch_marker : EpochStatus) : List Nat :=
  let st := st ++ be64 authority
  let st := st ++ be64 round
  let st := includes.foldl (fun st i => st ++ blockReferenceBytes i) st
  let st := statements.foldl statementUpdate st
  let st := st ++ be128 meta_creation_time_ns
  st ++ epochStatusBytes epoch_marker

/-- The blake2 `BlockHasher` finalization, abstract: maps the fed byte
stream to a 32-byte digest. -/
abbrev Finalizer := List Nat → BlockDigest

/-- `mldsa44::detached_sign`, abstract: secret-key bytes and message to
detached-signature bytes. -/
abbrev SignFn := List Nat → List Nat → List Nat

/-- The external mldsa44 verification primitive, abstract: signature bytes,
message, public-key bytes to the PQClean boolean outcome. -/
abbrev ExtVerify := List Nat → List Nat → List Nat → Bool

/-- `BlockDigest::new` (non-test): digest of the fields followed by the raw
signature bytes, finalized. -/
def blockDigestNew (H : Finalizer) (authority : AuthorityIndex)
    (round : RoundNumber) (includes : List BlockReference)
    (statements : List BaseStatement) (meta_creation_time_ns : TimestampNs)
    (epoch_marker : EpochStatus) (signature : SignatureBytes) : BlockDigest :=
  let hasher := ([] : List Nat)
  let hasher := digestWithoutSignature hasher authority round includes
    statements meta_creation_time_ns epoch_marker
  let hasher := hasher ++ signature.bytes
  H hasher

/-- `BlockDigest::new` under `cfg(test)`: ignores everything, returns the
default digest. -/
def blockDigestNewTest (_authority : AuthorityIndex) (_round : RoundNumber)
    (_includes : List BlockReference) (_statements : List BaseStatement)
    (_meta_creation_time_ns : TimestampNs) (_epoch_marker : EpochStatus)
    (_signature : SignatureBytes) : BlockDigest :=
  default

/-- `mldsa44::DetachedSignature::from_bytes`: accepts byte strings up to the
scheme's signature size (signatures of pqcrypto sign schemes may be shorter
than the maximum), rejects longer input. -/
def dsFromBytes (v : List Nat) : Except Unit (List Nat) :=
  if v.length > SIGNATURE_SIZE then .error () else .ok v

/-- `mldsa44::PublicKey::from_bytes`: accepts exactly-sized input. -/
def pkFromBytes (v : List Nat) : Except Unit (List Nat) :=
  if v.length = PUBLIC_KEY_SIZE then .ok v else .error ()

/-- `mldsa44::verify_detached_signature`: pqcrypto maps the PQClean return
value 0 to `Ok(())` and the failure return to
`Err(VerificationError::InvalidSignature)`. -/
def verifyDetachedSignature (V : ExtVerify) (sig msg pk : List Nat) :
    Except VerificationError Unit :=
  if V sig msg pk then .ok () else .error .InvalidSignature

/-- `PublicKey::verify_block` (non-test): decode the stored signature,
recompute the content digest, round-trip the public key through its bytes,
then verify; both decode failures are mapped to
`VerificationError::UnknownVerificationError`. -/
def verifyBlock (H : Finalizer) (V : ExtVerify) (pk : PublicKey)
    (block : StatementBlock) : Except VerificationError Unit :=
  match dsFromBytes block.signature.bytes with
  | .error _ => .error .UnknownVerificationError
  | .ok detached_signature =>
    let hasher := ([] : List Nat)
    let hasher := digestWithoutSignature hasher block.author block.round
      block.includes block.statements block.meta_creation_time_ns
      block.epoch_changed
    let digest := (H hasher).bytes
    match pkFromBytes pk.bytes with
    | .error _ => .error .UnknownVerificationError
    | .ok pub_key => verifyDetachedSignature V detached_signature digest pub_key

/-- `PublicKey::verify_block` under `cfg(test)`: always `Ok(())`. -/
def verifyBlockTest (_pk : PublicKey) (_block : StatementBlock) :
    Except VerificationError Unit :=
  .ok ()

/-- `Signer::public_key`: returns field 1, the cached public key. -/
def publicKey (s : Signer) : PublicKey :=
  s.pk

/-- `Signer::sign_block` (non-test). `none` models an abort: the
`try_into().expect(..)` on a wrong-length external signature, the
`.unwrap()` on re-decoding it, and the defensive `assert` that the fresh
signature verifies under the signer's own public key. -/
def signBlock (H : Finalizer) (signF : SignFn) (V : ExtVerify) (s : Signer)
    (authority : AuthorityIndex) (round : RoundNumber)
    (includes : List BlockReference) (statements : List BaseStatement)
    (meta_creation_time_ns : TimestampNs) (epoch_marker : EpochStatus) :
    Option SignatureBytes :=
  let hasher := ([] : List Nat)
  let hasher := digestWithoutSignature hasher authority round includes
    statements meta_creation_time_ns epoch_marker
  let digest := (H hasher).bytes
  let signature := signF s.secret.bytes digest
  let signature_bytes := signature
  if h : signature_bytes.length = SIGNATURE_SIZE then
    let s_bytes : SignatureBytes := ⟨signature_bytes, h⟩
    match dsFromBytes s_bytes.bytes with
    | .error _ => none
    | .ok detached =>
      match verifyDetachedSignature V detached digest (publicKey s).bytes with
      | .ok _ => some s_bytes
      | .error _ => none
  else
    none

/-- `Signer::sign_block` under `cfg(test)`: ignores everything, returns the
default (all-zero) signature. -/
def signBlockTest (_s : Signer) (_authority : AuthorityIndex)
    (_round : RoundNumber) (_includes : List BlockReference)
    (_statements : List BaseStatement) (_meta_creation_time_ns : TimestampNs)
    (_epoch_marker : EpochStatus) : SignatureBytes :=
  default

/-- `ByteRepr::try_copy_from_slice` for `SignatureBytes`: length check, then
verbatim copy. -/
def SignatureBytes.tryCopyFromSlice (v : List Nat) :
    Except String SignatureBytes :=
  if h : v.length = SIGNATURE_SIZE then
    .ok ⟨v, h⟩
  else
    .error ("Invalid signature length: " ++ toString v.length)

/-- `ByteRepr::try_copy_from_slice` for `BlockDigest`: length check, then
verbatim copy. -/
def BlockDigest.tryCopyFromSlice (v : List Nat) :
    Except String BlockDigest :=
  if h : v.length = BLOCK_DIGEST_SIZE then
    .ok ⟨v, h⟩
  else
    .error ("Invalid block digest length: " ++ toString v.length)

/-- `Serialize for SignatureBytes`: `serialize_bytes(&self.0)`, the raw
bytes. -/
def SignatureBytes.serializeBytes (s : SignatureBytes) : List Nat :=
  s.bytes

/-- `Serialize for BlockDigest`: `serialize_bytes(&self.0)`, the raw
bytes. -/
def BlockDigest.serializeBytes (d : BlockDigest) : List Nat :=
  d.bytes

/-- `Debug for PublicKey`: the constant opaque label. -/
def debugPublicKey (_pk : PublicKey) : String :=
  "PublicKey"

/-- `Debug for Signer`: the opaque label around the debug form of
`self.public_key()`. -/
def debugSigner (s : Signer) : String :=
  "Signer(public_key=" ++ debugPublicKey (publicKey s) ++ ")"

/-- `Display for Signer`: same text as `Debug for Signer`. -/
def displaySigner (s : Signer) : String :=
  "Signer(public_key=" ++ debugPublicKey (publicKey s) ++ ")"

/-- The derived `Serialize for Signer`: a tuple struct serializes its fields
in order, the boxed `SecretKeyLocal` (its raw secret bytes, via pqcrypto's
serde support) then the `PublicKey` bytes. -/
def serializeSigner (s : Signer) : List Nat × List Nat :=
  (s.secret.bytes, s.pk.bytes)

/- Specification-side definitions (following the words of the spec, to be
compared with the definitions extracted from the source). -/

/-- Spec-side (§4.1): the stable one-byte discriminant of a statement:
Share=0, Vote/Accept=1, Vote/Reject(no conflict)=2,
Vote/Reject(with conflict)=3, VoteRange=4. -/
def statementDiscriminant : BaseStatement → Nat
  | .share _ => 0
  | .vote _ .accept => 1
  | .vote _ (.reject none) => 2
  | .vote _ (.reject (some _)) => 3
  | .voteRange _ => 4

/-- Spec-side (§4.1): the payload fields of a statement, encoded in declared
order (for Reject-with-conflict, both references). -/
def statementPayload : BaseStatement → List Nat
  | .share tx => tx
  | .vote id .accept => blockReferenceBytes id
  | .vote id (.reject none) => blockReferenceBytes id
  | .vote id (.reject (some other)) =>
      blockReferenceBytes id ++ blockReferenceBytes other
  | .voteRange range => voteRangeBytes range

/-- Spec-side (§4.1): a tagged variant is its discriminant byte followed by
its payload fields in declared order. -/
def statementBytesSpec (s : BaseStatement) : List Nat :=
  statementDiscriminant s :: statementPayload s

/-- Spec-side (§4.2): the content-digest feed sequence, the canonically
encoded fields in the fixed order author, round, each include, each
statement, creation time, epoch marker, sequences element after element
with no length prefix. -/
def contentFeedSpec (authority : AuthorityIndex) (round : RoundNumber)
    (includes : List BlockReference) (statements : List BaseStatement)
    (meta_creation_time_ns : TimestampNs) (epoch_marker : EpochStatus) :
    List Nat :=
  be64 authority ++ be64 round ++
    (includes.map blockReferenceBytes).flatten ++
    (statements.map statementBytesSpec).flatten ++
    be128 meta_creation_time_ns ++ epochStatusBytes epoch_marker

/- Helper lemmas. -/

theorem be64_length (n : Nat) : (be64 n).length = 8 := by
  simp [be64]

theorem be128_length (n : Nat) : (be128 n).length = 16 := by
  simp [be128]

theorem be64_inj {a b : Nat} (ha : a < 2 ^ 64) (hb : b < 2 ^ 64)
    (h : be64 a = be64 b) : a = b := by
  simp only [be64, List.cons.injEq, and_true] at h
  obtain ⟨h1, h2, h3, h4, h5, h6, h7, h8⟩ := h
  omega

theorem be128_eq_append (n : Nat) :
    be128 n = be64 (n / 2 ^ 64) ++ be64 (n % 2 ^ 64) := by
  simp only [be128, be64, List.cons_append, List.nil_append, List.cons.injEq,
    and_true]
  refine ⟨?_, ?_, ?_, ?_, ?_, ?_, ?_, ?_, ?_, ?_, ?_, ?_, ?_, ?_, ?_, ?_⟩
  all_goals first
    | trivial
    | (rw [Nat.div_div_eq_div_mul]; norm_num)
    | omega

theorem be128_inj {a b : Nat} (ha : a < 2 ^ 128) (hb : b < 2 ^ 128)
    (h : be128 a = be128 b) : a = b := by
  rw [be128_eq_append, be128_eq_append] at h
  have h2 := List.append_inj h (by rw [be64_length, be64_length])
  have ha1 := be64_inj (by omega) (by omega) h2.1
  have ha2 := be64_inj (by omega) (by omega) h2.2
  omega

theorem epochStatusBytes_inj {a b : EpochStatus}
    (h : epochStatusBytes a = epochStatusBytes b) : a = b := by
  cases a <;> cases b <;> simp_all [epochStatusBytes]

theorem foldl_hashUpdate {α : Type} (f : List Nat → α → List Nat)
    (g : α → List Nat) (hf : ∀ st x, f st x = st ++ g x) :
    ∀ (l : List α) (st : List Nat),
      l.foldl f st = st ++ (l.map g).flatten
  | [], st => by simp
  | x :: xs, st => by
    simp only [List.foldl_cons, List.map_cons, List.flatten_cons]
    rw [foldl_hashUpdate f g hf xs, hf st x, List.append_assoc]

theorem statementUpdate_eq (st : List Nat) (s : BaseStatement) :
    statementUpdate st s = st ++ statementBytesSpec s := by
  cases s with
  | share tx => simp [statementUpdate, statementBytesSpec,
      statementDiscriminant, statementPayload]
  | vote id v =>
    cases v with
    | accept => simp [statementUpdate, statementBytesSpec,
        statementDiscriminant, statementPayload]
    | reject conflict =>
      cases conflict <;> simp [statementUpdate, statementBytesSpec,
        statementDiscriminant, statementPayload]
  | voteRange range => simp [statementUpdate, statementBytesSpec,
      statementDiscriminant, statementPayload]

theorem digestWithoutSignature_eq (st : List Nat)
    (authority : AuthorityIndex) (round : RoundNumber)
    (includes : List BlockReference) (statements : List BaseStatement)
    (t : TimestampNs) (e : EpochStatus) :
    digestWithoutSignature st authority round includes statements t e =
      st ++ contentFeedSpec authority round includes statements t e := by
  simp only [digestWithoutSignature, contentFeedSpec,
    foldl_hashUpdate (fun st i => st ++ blockReferenceBytes i)
      blockReferenceBytes (fun _ _ => rfl),
    foldl_hashUpdate statementUpdate statementBytesSpec statementUpdate_eq,
    List.append_assoc]

/- Claim theorems. -/

/-- C2: for every field tuple and signature, `BlockDigest::new` equals the
hash obtained by feeding the canonically encoded fields in the fixed order
author, round, each include in order, each statement in order, creation
time, epoch marker, then the raw signature bytes, into a fresh accumulator
and finalizing; and the content digest feed that is signed
(`digest_without_signature`) is the same sequence without the signature, so
the signature is excluded from the content digest but included in the
identity digest. -/
theorem blockDigestNew_matches_canonical_feed (H : Finalizer)
    (authority : AuthorityIndex) (round : RoundNumber)
    (includes : List BlockReference) (statements : List BaseStatement)
    (t : TimestampNs) (e : EpochStatus) (signature : SignatureBytes) :
    blockDigestNew H authority round includes statements t e signature =
      H (contentFeedSpec authority round includes statements t e ++
        signature.bytes) ∧
    digestWithoutSignature [] authority round includes statements t e =
      contentFeedSpec authority round includes statements t e := by
  refine ⟨?_, ?_⟩
  · simp only [blockDigestNew, digestWithoutSignature_eq, List.nil_append]
  · simp only [digestWithoutSignature_eq, List.nil_append]

/-- C3: every statement fed into the canonical hash encoding hashes a
one-byte discriminant before the payload fields in declared order, with
exactly the values Share=0, Vote/Accept=1, Vote/Reject without conflict=2,
Vote/Reject with conflict=3 (followed by both references), VoteRange=4. -/
theorem statementUpdate_discriminants (st : List Nat) (tx : List Nat)
    (id other : BlockReference) (range : VoteRangePayload) :
    statementUpdate st (.share tx) = st ++ 0 :: tx ∧
    statementUpdate st (.vote id .accept) =
      st ++ 1 :: blockReferenceBytes id ∧
    statementUpdate st (.vote id (.reject none)) =
      st ++ 2 :: blockReferenceBytes id ∧
    statementUpdate st (.vote id (.reject (some other))) =
      st ++ 3 :: (blockReferenceBytes id ++ blockReferenceBytes other) ∧
    statementUpdate st (.voteRange range) =
      st ++ 4 :: voteRangeBytes range := by
  refine ⟨?_, ?_, ?_, ?_, ?_⟩ <;> simp [statementUpdate]

/-- C10: under `cfg(test)` the cryptographic checks are bypassed:
`verify_block` returns success for every block and public key,
`sign_block` returns the all-zero default `SignatureBytes` ignoring all of
its arguments, and `BlockDigest::new` returns the default digest. -/
theorem cfg_test_bypasses_crypto (pk : PublicKey) (block : StatementBlock)
    (s : Signer) (authority : AuthorityIndex) (round : RoundNumber)
    (includes : List BlockReference) (statements : List BaseStatement)
    (t : TimestampNs) (e : EpochStatus) (signature : SignatureBytes) :
    verifyBlockTest pk block = .ok () ∧
    signBlockTest s authority round includes statements t e = default ∧
    (signBlockTest s authority round includes statements t e).bytes =
      List.replicate SIGNATURE_SIZE 0 ∧
    blockDigestNewTest authority round includes statements t e signature =
      default := by
  exact ⟨rfl, rfl, rfl, rfl⟩

/-- C6: fixed-size decode (`try_copy_from_slice`) errors exactly when the
input length differs from the declared size (32 for `BlockDigest`,
`SIGNATURE_SIZE` for `SignatureBytes`), on a correctly sized input returns
the bytes verbatim, and decode composed with encode is the identity. -/
theorem tryCopyFromSlice_length_check (v : List Nat) (s : SignatureBytes)
    (d : BlockDigest) :
    ((∃ e, SignatureBytes.tryCopyFromSlice v = .error e) ↔
      v.length ≠ SIGNATURE_SIZE) ∧
    (∀ s2, SignatureBytes.tryCopyFromSlice v = .ok s2 → s2.bytes = v) ∧
    ((∃ e, BlockDigest.tryCopyFromSlice v = .error e) ↔
      v.length ≠ BLOCK_DIGEST_SIZE) ∧
    (∀ d2, BlockDigest.tryCopyFromSlice v = .ok d2 → d2.bytes = v) ∧
    SignatureBytes.tryCopyFromSlice s.serializeBytes = .ok s ∧
    BlockDigest.tryCopyFromSlice d.serializeBytes = .ok d := by
  refine ⟨?_, ?_, ?_, ?_, ?_, ?_⟩
  · unfold SignatureBytes.tryCopyFromSlice
    split <;> simp_all
  · intro s2
    unfold SignatureBytes.tryCopyFromSlice
    split <;> intro h <;> simp_all
    exact (congrArg SignatureBytes.bytes h.symm)
  · unfold BlockDigest.tryCopyFromSlice
    split <;> simp_all
  · intro d2
    unfold BlockDigest.tryCopyFromSlice
    split <;> intro h <;> simp_all
    exact (congrArg BlockDigest.bytes h.symm)
  · obtain ⟨b, hb⟩ := s
    simp [SignatureBytes.tryCopyFromSlice, SignatureBytes.serializeBytes, hb]
  · obtain ⟨b, hb⟩ := d
    simp [BlockDigest.tryCopyFromSlice, BlockDigest.serializeBytes, hb]

/-- Witness for C6: a 32-byte input is rejected as a signature but decoded
verbatim as a block digest. -/
theorem tryCopyFromSlice_length_check_witness :
    (∃ e, SignatureBytes.tryCopyFromSlice (List.replicate 32 0) =
      .error e) ∧
    (∀ d2, BlockDigest.tryCopyFromSlice (List.replicate 32 0) = .ok d2 →
      d2.bytes = List.replicate 32 0) := by
  have h := tryCopyFromSlice_length_check (List.replicate 32 0) default
    default
  exact ⟨h.1.mpr (by simp [SIGNATURE_SIZE]), h.2.2.2.1⟩

/-- A concrete public key used in witnesses. -/
def pkZero : PublicKey :=
  ⟨List.replicate PUBLIC_KEY_SIZE 0, by simp⟩

/-- A concrete all-zero secret key (the `Default` value). -/
def skZero : SecretKeyLocal :=
  ⟨0 :: List.replicate (SECRET_KEY_SIZE - 1) 0⟩

/-- A concrete secret key differing from `skZero` in its first byte only. -/
def skOne : SecretKeyLocal :=
  ⟨1 :: List.replicate (SECRET_KEY_SIZE - 1) 0⟩

/-- A concrete signer holding `skZero` and `pkZero`. -/
def signerA : Signer :=
  ⟨skZero, pkZero⟩

/-- A concrete signer with the same public key as `signerA` but a different
secret key. -/
def signerB : Signer :=
  ⟨skOne, pkZero⟩

/-- C9 counterexample: the derived serde `Serialize` of `Signer` is an
operation whose output carries the secret key bytes verbatim and varies
between two signers that differ only in the secret half, so not every
`Signer` operation keeps the secret key inside the signing routine. -/
theorem serializeSigner_exposes_secret :
    (serializeSigner signerA).1 = signerA.secret.bytes ∧
    signerA.pk = signerB.pk ∧
    signerA.secret.bytes ≠ signerB.secret.bytes ∧
    serializeSigner signerA ≠ serializeSigner signerB := by
  refine ⟨rfl, rfl, ?_, ?_⟩
  · simp [signerA, signerB, skZero, skOne]
  · simp [serializeSigner, signerA, signerB, skZero, skOne]

/-- C9 (amended): `public_key()` returns only the public half, and the
`Debug`/`Display` output of `Signer` and the `Debug` output of `PublicKey`
are independent of the secret key bytes, revealing only an opaque label
plus the public key; however the derived serde `Serialize` of `Signer`
(used to persist the private node configuration) does write the secret key
bytes, so serialization is excluded. -/
theorem signer_observables_secret_independent (s1 s2 : Signer)
    (h : s1.pk = s2.pk) :
    publicKey s1 = s1.pk ∧
    publicKey s1 = publicKey s2 ∧
    debugSigner s1 = debugSigner s2 ∧
    displaySigner s1 = displaySigner s2 ∧
    debugPublicKey (publicKey s1) = "PublicKey" := by
  exact ⟨rfl, by simp [publicKey, h], rfl, rfl, rfl⟩

/-- Witness for C9 (amended): evaluated on the two concrete signers sharing
a public key. -/
theorem signer_observables_secret_independent_witness :
    publicKey signerA = signerA.pk ∧
    publicKey signerA = publicKey signerB ∧
    debugSigner signerA = debugSigner signerB ∧
    displaySigner signerA = displaySigner signerB ∧
    debugPublicKey (publicKey signerA) = "PublicKey" :=
  signer_observables_secret_independent signerA signerB rfl

/-- C5: `PublicKey::verify_block` never panics on any input block and
returns either success or a verification failure; since the stored
signature is a fixed-size byte array, the malformed-encoding branches are
never taken, and every reported failure is the single kind
`InvalidSignature`. -/
theorem verifyBlock_total_single_failure_kind (H : Finalizer)
    (V : ExtVerify) (pk : PublicKey) (block : StatementBlock) :
    verifyBlock H V pk block = .ok () ∨
    verifyBlock H V pk block = .error .InvalidSignature := by
  have hs := block.signature.size_eq
  have hp := pk.size_eq
  by_cases hV : V block.signature.bytes
      ((H (digestWithoutSignature [] block.author block.round
        block.includes block.statements block.meta_creation_time_ns
        block.epoch_changed)).bytes) pk.bytes
  · left
    simp [verifyBlock, dsFromBytes, pkFromBytes, verifyDetachedSignature,
      hs, hp, hV]
  · right
    simp [verifyBlock, dsFromBytes, pkFromBytes, verifyDetachedSignature,
      hs, hp, hV]

/-- Characterization of `signBlock`: it returns the produced signature
exactly when the external signature has the declared size and the defensive
self-check passes, and aborts (`none`) otherwise. -/
theorem signBlock_eq (H : Finalizer) (signF : SignFn) (V : ExtVerify)
    (s : Signer) (authority : AuthorityIndex) (round : RoundNumber)
    (includes : List BlockReference) (statements : List BaseStatement)
    (t : TimestampNs) (e : EpochStatus) :
    signBlock H signF V s authority round includes statements t e =
      if h : (signF s.secret.bytes
          ((H (digestWithoutSignature [] authority round includes statements
            t e)).bytes)).length = SIGNATURE_SIZE then
        if V (signF s.secret.bytes
            ((H (digestWithoutSignature [] authority round includes
              statements t e)).bytes))
            ((H (digestWithoutSignature [] authority round includes
              statements t e)).bytes) s.pk.bytes then
          some ⟨signF s.secret.bytes
            ((H (digestWithoutSignature [] authority round includes
              statements t e)).bytes), h⟩
        else
          none
      else
        none := by
  by_cases hlen : (signF s.secret.bytes
      ((H (digestWithoutSignature [] authority round includes statements
        t e)).bytes)).length = SIGNATURE_SIZE
  · by_cases hV : V (signF s.secret.bytes
        ((H (digestWithoutSignature [] authority round includes statements
          t e)).bytes))
        ((H (digestWithoutSignature [] authority round includes statements
          t e)).bytes) s.pk.bytes
    · simp [signBlock, dsFromBytes, verifyDetachedSignature, publicKey,
        hlen, hV]
    · simp [signBlock, dsFromBytes, verifyDetachedSignature, publicKey,
        hlen, hV]
  · simp [signBlock, hlen]

/-- Characterization of `verifyBlock`: since the stored signature and the
public key always have their declared sizes, the result is decided by the
external verification primitive on the recomputed content digest. -/
theorem verifyBlock_eq (H : Finalizer) (V : ExtVerify) (pk : PublicKey)
    (block : StatementBlock) :
    verifyBlock H V pk block =
      if V block.signature.bytes
          ((H (digestWithoutSignature [] block.author block.round
            block.includes block.statements block.meta_creation_time_ns
            block.epoch_changed)).bytes) pk.bytes then
        .ok ()
      else
        .error .InvalidSignature := by
  have hs := block.signature.size_eq
  have hp := pk.size_eq
  by_cases hV : V block.signature.bytes
      ((H (digestWithoutSignature [] block.author block.round
        block.includes block.statements block.meta_creation_time_ns
        block.epoch_changed)).bytes) pk.bytes
  · simp [verifyBlock, dsFromBytes, pkFromBytes, verifyDetachedSignature,
      hs, hp, hV]
  · simp [verifyBlock, dsFromBytes, pkFromBytes, verifyDetachedSignature,
      hs, hp, hV]

/-- C4: `sign_block` self-checks the signature it just produced against its
own public key and the same content digest before returning: on every
non-aborting return the returned signature verifies under the signer's
public key (so the block it signs passes `verify_block`), and if the
self-check fails, `sign_block` aborts (modelled `none`) rather than
returning a signature or a recoverable error. -/
theorem signBlock_self_check_fatal (H : Finalizer) (signF : SignFn)
    (V : ExtVerify) (s : Signer) (authority : AuthorityIndex)
    (round : RoundNumber) (includes : List BlockReference)
    (statements : List BaseStatement) (t : TimestampNs) (e : EpochStatus) :
    (∀ sig, signBlock H signF V s authority round includes statements t e =
        some sig →
      verifyDetachedSignature V sig.bytes
        ((H (digestWithoutSignature [] authority round includes statements
          t e)).bytes) (publicKey s).bytes = .ok () ∧
      verifyBlock H V (publicKey s)
        ⟨authority, round, includes, statements, t, e, sig⟩ = .ok ()) ∧
    (V (signF s.secret.bytes
        ((H (digestWithoutSignature [] authority round includes statements
          t e)).bytes))
        ((H (digestWithoutSignature [] authority round includes statements
          t e)).bytes) (publicKey s).bytes = false →
      signBlock H signF V s authority round includes statements t e =
        none) := by
  constructor
  · intro sig hsig
    rw [signBlock_eq] at hsig
    by_cases hlen : (signF s.secret.bytes
        ((H (digestWithoutSignature [] authority round includes statements
          t e)).bytes)).length = SIGNATURE_SIZE
    · rw [dif_pos hlen] at hsig
      by_cases hV : V (signF s.secret.bytes
          ((H (digestWithoutSignature [] authority round includes
            statements t e)).bytes))
          ((H (digestWithoutSignature [] authority round includes statements
            t e)).bytes) s.pk.bytes
      · rw [if_pos hV] at hsig
        obtain rfl : (⟨signF s.secret.bytes
            ((H (digestWithoutSignature [] authority round includes
              statements t e)).bytes), hlen⟩ : SignatureBytes) = sig := by
          exact Option.some.inj hsig
        constructor
        · simp [verifyDetachedSignature, publicKey, hV]
        · rw [verifyBlock_eq]
          simp [publicKey, hV]
      · rw [if_neg hV] at hsig
        exact absurd hsig (by simp)
    · rw [dif_neg hlen] at hsig
      exact absurd hsig (by simp)
  · intro hV
    rw [signBlock_eq]
    by_cases hlen : (signF s.secret.bytes
        ((H (digestWithoutSignature [] authority round includes statements
          t e)).bytes)).length = SIGNATURE_SIZE
    · rw [dif_pos hlen, if_neg (by simp [publicKey] at hV; simp [hV])]
    · rw [dif_neg hlen]

/-- Witness for C4: with an always-accepting external verifier the signed
block verifies, and with an always-rejecting one (a failing self-check)
`sign_block` aborts. -/
theorem signBlock_self_check_fatal_witness :
    verifyBlock (fun _ => default) (fun _ _ _ => true) (publicKey signerA)
      ⟨0, 0, [], [], 0, false,
        ⟨List.replicate SIGNATURE_SIZE 0, by simp⟩⟩ = .ok () ∧
    signBlock (fun _ => default)
      (fun _ _ => List.replicate SIGNATURE_SIZE 0) (fun _ _ _ => false)
      signerA 0 0 [] [] 0 false = none := by
  constructor
  · exact ((signBlock_self_check_fatal (fun _ => default)
      (fun _ _ => List.replicate SIGNATURE_SIZE 0) (fun _ _ _ => true)
      signerA 0 0 [] [] 0 false).1
      ⟨List.replicate SIGNATURE_SIZE 0, by simp⟩
      (by rw [signBlock_eq]; simp)).2
  · exact (signBlock_self_check_fatal (fun _ => default)
      (fun _ _ => List.replicate SIGNATURE_SIZE 0) (fun _ _ _ => false)
      signerA 0 0 [] [] 0 false).2 rfl

/-- C1: round-trip: for every field tuple, when the external scheme
produces a correctly sized signature that verifies under the signer's own
public key (the keypair correctness of the external scheme), verifying the
signature produced by `sign_block` over those fields with
`verify_block` on a block carrying the same fields succeeds. -/
theorem sign_verify_roundtrip (H : Finalizer) (signF : SignFn)
    (V : ExtVerify) (s : Signer) (authority : AuthorityIndex)
    (round : RoundNumber) (includes : List BlockReference)
    (statements : List BaseStatement) (t : TimestampNs) (e : EpochStatus)
    (hlen : (signF s.secret.bytes
      ((H (digestWithoutSignature [] authority round includes statements
        t e)).bytes)).length = SIGNATURE_SIZE)
    (hcorrect : V (signF s.secret.bytes
        ((H (digestWithoutSignature [] authority round includes statements
          t e)).bytes))
        ((H (digestWithoutSignature [] authority round includes statements
          t e)).bytes) (publicKey s).bytes = true) :
    ∃ sig, signBlock H signF V s authority round includes statements t e =
        some sig ∧
      verifyBlock H V (publicKey s)
        ⟨authority, round, includes, statements, t, e, sig⟩ = .ok () := by
  refine ⟨⟨signF s.secret.bytes
    ((H (digestWithoutSignature [] authority round includes statements
      t e)).bytes), hlen⟩, ?_, ?_⟩
  · rw [signBlock_eq, dif_pos hlen, if_pos (by simpa [publicKey] using
      hcorrect)]
  · rw [verifyBlock_eq]
    simpa [publicKey] using hcorrect

/-- Witness for C1: evaluated with a concrete signer, a constant external
signer and an accepting external verifier. -/
theorem sign_verify_roundtrip_witness :
    ∃ sig, signBlock (fun _ => default)
        (fun _ _ => List.replicate SIGNATURE_SIZE 0) (fun _ _ _ => true)
        signerA 3 7 [] [] 1000 false = some sig ∧
      verifyBlock (fun _ => default) (fun _ _ _ => true) (publicKey signerA)
        ⟨3, 7, [], [], 1000, false, sig⟩ = .ok () :=
  sign_verify_roundtrip (fun _ => default)
    (fun _ _ => List.replicate SIGNATURE_SIZE 0) (fun _ _ _ => true)
    signerA 3 7 [] [] 1000 false (by simp) rfl

/-- C7 counterexample: the canonical hash encoding is not injective.
Because sequences are fed with no length prefix, the two distinct
statements lists `[Share "", Share ""]` and `[Share [0]]` (all other fields
equal) feed the identical byte stream to the accumulator. -/
theorem canonical_encoding_not_injective :
    digestWithoutSignature [] 0 0 []
        [BaseStatement.share [], BaseStatement.share []] 0 false =
      digestWithoutSignature [] 0 0 [] [BaseStatement.share [0]] 0 false ∧
    ([BaseStatement.share [], BaseStatement.share []] : List BaseStatement)
      ≠ [BaseStatement.share [0]] := by
  constructor
  · rfl
  · intro h
    simpa using congrArg List.length h

/-- C7 (amended): the canonical encoding is injective in the fixed-width
fields: for two tuples sharing their includes and statements lists, equal
byte streams force equal author, round, creation time and epoch marker; but
full injectivity over the sequence fields fails, since they are fed with no
length prefix. -/
theorem canonical_encoding_fixed_field_injective (a1 r1 t1 : Nat)
    (e1 : EpochStatus) (a2 r2 t2 : Nat) (e2 : EpochStatus)
    (includes : List BlockReference) (statements : List BaseStatement)
    (ha1 : a1 < 2 ^ 64) (ha2 : a2 < 2 ^ 64) (hr1 : r1 < 2 ^ 64)
    (hr2 : r2 < 2 ^ 64) (ht1 : t1 < 2 ^ 128) (ht2 : t2 < 2 ^ 128)
    (h : digestWithoutSignature [] a1 r1 includes statements t1 e1 =
      digestWithoutSignature [] a2 r2 includes statements t2 e2) :
    a1 = a2 ∧ r1 = r2 ∧ t1 = t2 ∧ e1 = e2 := by
  rw [digestWithoutSignature_eq, digestWithoutSignature_eq] at h
  simp only [contentFeedSpec, List.nil_append, List.append_assoc] at h
  have h1 := List.append_inj h (by rw [be64_length, be64_length])
  have h2 := List.append_inj h1.2 (by rw [be64_length, be64_length])
  have h3 := List.append_cancel_left h2.2
  have h4 := List.append_cancel_left h3
  have h5 := List.append_inj h4 (by rw [be128_length, be128_length])
  refine ⟨be64_inj ha1 ha2 h1.1, be64_inj hr1 hr2 h2.1,
    be128_inj ht1 ht2 h5.1, epochStatusBytes_inj h5.2⟩

/-- Witness for C7 (amended): evaluated at two equal concrete tuples. -/
theorem canonical_encoding_fixed_field_injective_witness :
    (3 : Nat) = 3 ∧ (7 : Nat) = 7 ∧ (1000 : Nat) = 1000 ∧
      (false : EpochStatus) = false :=
  canonical_encoding_fixed_field_injective 3 7 1000 false 3 7 1000 false
    [] [BaseStatement.share [97, 98, 99]] (by norm_num) (by norm_num)
    (by norm_num) (by norm_num) (by norm_num) (by norm_num) rfl

end Mysticeti
